import Mathlib

/-!
Verification of the response normalization and presentation pipeline of the
mcp_server_abap_doc repository: the result serializer (`serializeResult`),
the error projector (`handleError`), the path transformer
(`handleGetObjectPath`), the search-result transformer (`handleGetObjects`)
and the source-URL construction (`sourceUrlFor`).

JSON-like runtime values are modelled by the mutual inductive `JVal`
(objects carry an association list of fields with unique keys, as produced
by `JSON.parse`; JavaScript numbers are modelled as integers — no claim
here depends on float or `NaN` behaviour; `jbig` models `bigint` values).
JavaScript truthiness, property access, optional chaining, `||` fallback
chains and template-literal stringification are modelled explicitly so the
definitions can be diffed line by line against the TypeScript source.
-/

mutual

inductive JVal where
  | jstr (s : String)
  | jnum (n : Int)
  | jbig (n : Int)
  | jbool (b : Bool)
  | jnull
  | jobj (fs : JFields)
  | jarr (xs : JList)

inductive JFields where
  | fnil
  | fcons (k : String) (v : JVal) (rest : JFields)

inductive JList where
  | lnil
  | lcons (v : JVal) (rest : JList)

end

def JList.toList : JList → List JVal
  | .lnil => []
  | .lcons v rest => v :: rest.toList

def JList.ofList : List JVal → JList
  | [] => .lnil
  | v :: rest => .lcons v (JList.ofList rest)

/-- JavaScript falsiness (`!value`): empty string, `0`, `0n`, `false`,
`null` are falsy; every object and array (even empty ones) is truthy. -/
def isFalsy : JVal → Bool
  | .jstr s => s == ""
  | .jnum n => n == 0
  | .jbig n => n == 0
  | .jbool b => !b
  | .jnull => true
  | .jobj _ => false
  | .jarr _ => false

def truthy (v : JVal) : Bool := !(isFalsy v)

def truthyOpt : Option JVal → Bool
  | none => false
  | some v => truthy v

def isNull : JVal → Bool
  | .jnull => true
  | _ => false

/-- First binding of a key in an object's field list (JS objects from
`JSON.parse` have unique keys, so first match equals the JS lookup). -/
def JFields.lookupF : JFields → String → Option JVal
  | .fnil, _ => none
  | .fcons k v rest, key => if k == key then some v else rest.lookupF key

/-- JavaScript property read `v[k]` on a non-null value: `none` models
`undefined` (property reads on scalars yield `undefined`). -/
def jsGet : JVal → String → Option JVal
  | .jobj fs, k => fs.lookupF k
  | _, _ => none

/-- Optional chaining `a?.[k]`: short-circuits to `undefined` when the
receiver is `null`/`undefined`. -/
def jsGetOpt : Option JVal → String → Option JVal
  | none, _ => none
  | some .jnull, _ => none
  | some v, k => jsGet v k

/-- JavaScript `a || b` on possibly-undefined values. -/
def jsOrV (a b : Option JVal) : Option JVal :=
  if truthyOpt a then a else b

/-- Fallback chain `item.k1 || item.k2 || ... || ''` as used by the
serializer's list renderer. -/
def fieldChainV (item : JVal) : List String → JVal
  | [] => .jstr ""
  | k :: rest =>
    if truthyOpt (jsGet item k) then (jsGet item k).getD (.jstr "")
    else fieldChainV item rest

mutual

/-- Template-literal stringification of a defined value. -/
def jsToPrim : JVal → String
  | .jstr s => s
  | .jnum n => toString n
  | .jbig n => toString n
  | .jbool b => cond b "true" "false"
  | .jnull => "null"
  | .jobj _ => "[object Object]"
  | .jarr xs => joinArr xs

/-- `Array.prototype.toString` joins elements with a comma; `null` elements
render as the empty string. -/
def joinArr : JList → String
  | .lnil => ""
  | .lcons .jnull .lnil => ""
  | .lcons v .lnil => jsToPrim v
  | .lcons .jnull rest => "," ++ joinArr rest
  | .lcons v rest => jsToPrim v ++ "," ++ joinArr rest

end

/-- Template-literal stringification including `undefined`: the template
renders a missing (`undefined`) value as the literal text `undefined`. -/
def jsTemplateOpt : Option JVal → String
  | none => "undefined"
  | some v => jsToPrim v

def isWsChar (c : Char) : Bool :=
  c == ' ' || c == '\t' || c == '\n' || c == '\r' || c == '\x0b' || c == '\x0c'

def trimChars (l : List Char) : List Char :=
  ((l.dropWhile isWsChar).reverse.dropWhile isWsChar).reverse

/-- `String.prototype.trim` (ASCII whitespace suffices for this code base). -/
def jsTrim (s : String) : String := String.mk (trimChars s.data)

def startsWithL : List Char → List Char → Bool
  | [], _ => true
  | _ :: _, [] => false
  | a :: as, b :: bs => a == b && startsWithL as bs

def inclL (needle : List Char) : List Char → Bool
  | [] => needle.isEmpty
  | c :: rest => startsWithL needle (c :: rest) || inclL needle rest

/-- `String.prototype.includes`. -/
def jsIncludes (s sub : String) : Bool := inclL sub.data s.data

/-- `String.prototype.startsWith`. -/
def startsWithS (s pre : String) : Bool := startsWithL pre.data s.data

/-- `String.prototype.endsWith`. -/
def endsWithS (s suf : String) : Bool := startsWithL suf.data.reverse s.data.reverse

/-- One pass of `text.replace(/<[^>]*>?/gm, '')`: outside a tag, a literal
char is kept and a lone closing angle is kept; each opening angle starts a
match that consumes up to and including the next closing angle (or the end
of the string when the tag is unclosed). -/
def stripAux : Bool → List Char → List Char
  | _, [] => []
  | true, c :: rest => if c = '>' then stripAux false rest else stripAux true rest
  | false, c :: rest => if c = '<' then stripAux true rest else c :: stripAux false rest

def stripTags (l : List Char) : List Char := stripAux false l

/-- The serializer's fixed redaction block-list (source: `serializeResult`). -/
def blackList : List String :=
  ["links", "etag", "annex", "changed_by", "created_by", "changed_at", "parent_uri"]

mutual

/-- The replacer pass of
`JSON.parse(JSON.stringify(result, (key, value) => ...))`: every field whose
key is block-listed is dropped (at any depth), `bigint` values become their
decimal strings, everything else round-trips unchanged. -/
def redact : JVal → JVal
  | .jstr s => .jstr s
  | .jnum n => .jnum n
  | .jbig n => .jstr (toString n)
  | .jbool b => .jbool b
  | .jnull => .jnull
  | .jobj fs => .jobj (redactF fs)
  | .jarr xs => .jarr (redactL xs)

def redactF : JFields → JFields
  | .fnil => .fnil
  | .fcons k v rest =>
    if blackList.contains k then redactF rest
    else .fcons k (redact v) (redactF rest)

def redactL : JList → JList
  | .lnil => .lnil
  | .lcons v rest => .lcons (redact v) (redactL rest)

end

mutual

/-- Whether some field at any nesting depth has a block-listed key. -/
def hasBlockedKey : JVal → Bool
  | .jobj fs => hasBlockedKeyF fs
  | .jarr xs => hasBlockedKeyL xs
  | _ => false

def hasBlockedKeyF : JFields → Bool
  | .fnil => false
  | .fcons k v rest => blackList.contains k || hasBlockedKey v || hasBlockedKeyF rest

def hasBlockedKeyL : JList → Bool
  | .lnil => false
  | .lcons v rest => hasBlockedKey v || hasBlockedKeyL rest

end

def hexDigit (n : Nat) : Char :=
  if n < 10 then Char.ofNat (48 + n) else Char.ofNat (87 + n)

def hexByte (n : Nat) : String :=
  String.mk [hexDigit (n / 16), hexDigit (n % 16)]

/-- JSON string escaping as performed by `JSON.stringify`. -/
def escChar (c : Char) : String :=
  if c = '"' then "\\\""
  else if c = '\\' then "\\\\"
  else if c = '\n' then "\\n"
  else if c = '\r' then "\\r"
  else if c = '\t' then "\\t"
  else if c.toNat = 8 then "\\b"
  else if c.toNat = 12 then "\\f"
  else if c.toNat < 32 then "\\u00" ++ hexByte c.toNat
  else String.singleton c

def escapeJson (s : String) : String := String.join (s.data.map escChar)

def quoteJson (s : String) : String := "\"" ++ escapeJson s ++ "\""

def spacesN (n : Nat) : String := String.mk (List.replicate n ' ')

mutual

/-- `JSON.stringify(v, null, 2)` at indentation level `ind` (after
redaction no `bigint` remains; a residual one is rendered as its digits). -/
def renderJ (ind : Nat) : JVal → String
  | .jstr s => quoteJson s
  | .jnum n => toString n
  | .jbig n => toString n
  | .jbool b => cond b "true" "false"
  | .jnull => "null"
  | .jobj fs =>
    match fs with
    | .fnil => "\x7b\x7d"
    | _ => "\x7b\n" ++ renderJF (ind + 2) fs ++ "\n" ++ spacesN ind ++ "\x7d"
  | .jarr xs =>
    match xs with
    | .lnil => "[]"
    | _ => "[\n" ++ renderJL (ind + 2) xs ++ "\n" ++ spacesN ind ++ "]"

def renderJF (ind : Nat) : JFields → String
  | .fnil => ""
  | .fcons k v .fnil => spacesN ind ++ quoteJson k ++ ": " ++ renderJ ind v
  | .fcons k v rest =>
    spacesN ind ++ quoteJson k ++ ": " ++ renderJ ind v ++ ",\n" ++ renderJF ind rest

def renderJL (ind : Nat) : JList → String
  | .lnil => ""
  | .lcons v .lnil => spacesN ind ++ renderJ ind v
  | .lcons v rest => spacesN ind ++ renderJ ind v ++ ",\n" ++ renderJL ind rest

end

mutual

/-- Compact `JSON.stringify(v)` (used by the error projector). -/
def renderC : JVal → String
  | .jstr s => quoteJson s
  | .jnum n => toString n
  | .jbig n => toString n
  | .jbool b => cond b "true" "false"
  | .jnull => "null"
  | .jobj fs => "\x7b" ++ renderCF fs ++ "\x7d"
  | .jarr xs => "[" ++ renderCL xs ++ "]"

def renderCF : JFields → String
  | .fnil => ""
  | .fcons k v .fnil => quoteJson k ++ ":" ++ renderC v
  | .fcons k v rest => quoteJson k ++ ":" ++ renderC v ++ "," ++ renderCF rest

def renderCL : JList → String
  | .lnil => ""
  | .lcons v .lnil => renderC v
  | .lcons v rest => renderC v ++ "," ++ renderCL rest

end

/-- One `{ type: 'text', text }` block of the tool-result shape. -/
structure ContentItem where
  ctype : String
  text : String
deriving DecidableEq

/-- The PresentedText shape `{ content, isError? }`; an absent `isError`
is modelled as `false`. -/
structure Presented where
  content : List ContentItem
  isError : Bool
deriving DecidableEq

def mkText (s : String) : ContentItem := ⟨"text", s⟩

def Presented.textOf (p : Presented) : String :=
  match p.content with
  | c :: _ => c.text
  | [] => ""

/-- V8 error message raised by `item.name` when `item` is `null` inside the
serializer's list renderer; it is caught by the serializer's own
`try/catch`. -/
def nullNameMsg : String := "Cannot read properties of null (reading \x27name\x27)"

/-- One line of the serializer's list rendering:
`- ${item.name || item.ObjectName || ''} (${item.type || item.ObjectType || ''}) ${item.description || ''}`. -/
def renderItemStr (item : JVal) : String :=
  "- " ++ jsToPrim (fieldChainV item ["name", "ObjectName"]) ++ " (" ++
    jsToPrim (fieldChainV item ["type", "ObjectType"]) ++ ") " ++
    jsToPrim (fieldChainV item ["description"])

/-- The mapped rendering of the first entries; a `null` entry throws inside
the `map` callback, which the serializer's `catch` turns into an error
result. -/
def renderItems : List JVal → Except String (List String)
  | [] => .ok []
  | item :: rest =>
    if isNull item then .error nullNameMsg
    else
      match renderItems rest with
      | .ok ls => .ok (renderItemStr item :: ls)
      | .error m => .error m

/-- Steps 2-5 of `serializeResult` applied to the already-redacted value
`clean`: list-vs-object rendering with 50-entry truncation. -/
def serializeClean : JVal → Presented
  | .jarr xs =>
    let l := xs.toList
    if l.length = 0 then ⟨[mkText "Empty list"], false⟩
    else
      match renderItems (l.take 50) with
      | .error m => ⟨[mkText ("Error: " ++ m)], true⟩
      | .ok lines =>
        if 50 < l.length then
          ⟨[mkText (String.intercalate "\n" lines ++ "\n\n...and " ++
            toString (l.length - 50) ++ " more objects.")], false⟩
        else ⟨[mkText (String.intercalate "\n" lines)], false⟩
  | c => ⟨[mkText (renderJ 0 c)], false⟩

/-- `AbapAdtServer.serializeResult` (src/unnamed/part_001, lines 70-125). -/
def serializeResult : JVal → Presented
  | result =>
    if isFalsy result then ⟨[mkText "No data returned from SAP"], false⟩
    else
      match result with
      | .jstr s =>
        let t := jsTrim s
        if startsWithS t "<?xml" || jsIncludes t "<adt:" then
          ⟨[mkText (jsTrim (String.mk (stripTags t.data)))], false⟩
        else ⟨[mkText t], false⟩
      | v => serializeClean (redact v)

/-- The redacted top-level sequence as a Lean list. -/
def cleanList (xs : JList) : List JVal := (redactL xs).toList

/-- JSON-RPC / MCP `ErrorCode.InternalError`. -/
def internalErrorCode : Int := -32603

/-- A value thrown inside a tool invocation: a recognized `McpError`
(stable code and message), a generic `Error`, or a non-`Error` value
(which `handleError` first wraps into a plain `Error`). -/
inductive Thrown where
  | mcpErr (code : Int) (msg : String)
  | jsErr (msg : String)
  | other (v : JVal)

def errPresented (m : String) (c : Int) : Presented :=
  ⟨[mkText (renderC (.jobj (.fcons "error" (.jstr m) (.fcons "code" (.jnum c) .fnil))))], true⟩

/-- `AbapAdtServer.handleError` (src/unnamed/part_001, lines 147-173). -/
def handleError : Thrown → Presented
  | .mcpErr c m => errPresented m c
  | .jsErr _ => errPresented "Internal server error" internalErrorCode
  | .other _ => errPresented "Internal server error" internalErrorCode

/-- The `CallToolRequestSchema` handler boundary (src/unnamed/part_001,
lines 196-238): the tool result is serialized, any thrown value is caught
and projected by `handleError`; both paths end in a `Presented`. -/
def callToolOutcome : Except Thrown JVal → Presented
  | .ok v => serializeResult v
  | .error e => handleError e

/-- The root-resolver chain of `handleGetObjectPath`
(src/tool_handlers/ObjectHandler.ts, line 169):
`data['class:abapClass'] || data['adtcore:object'] || data['program:abapProgram'] || data['table:abapTable']`. -/
def resolveRoot (d : JVal) : Option JVal :=
  jsOrV (jsGet d "class:abapClass")
    (jsOrV (jsGet d "adtcore:object")
      (jsOrV (jsGet d "program:abapProgram") (jsGet d "table:abapTable")))

/-- Modelled from the spec words (for comparison with `resolveRoot`): the
value of the first candidate key that is present in the mapping. -/
def firstPresentRoot (d : JVal) : Option JVal :=
  if (jsGet d "class:abapClass").isSome then jsGet d "class:abapClass"
  else if (jsGet d "adtcore:object").isSome then jsGet d "adtcore:object"
  else if (jsGet d "program:abapProgram").isSome then jsGet d "program:abapProgram"
  else if (jsGet d "table:abapTable").isSome then jsGet d "table:abapTable"
  else none

/-- The value of the first candidate key whose value is present and truthy
(what the `||` chain actually selects when one exists). -/
def firstTruthyRoot (d : JVal) : Option JVal :=
  if truthyOpt (jsGet d "class:abapClass") then jsGet d "class:abapClass"
  else if truthyOpt (jsGet d "adtcore:object") then jsGet d "adtcore:object"
  else if truthyOpt (jsGet d "program:abapProgram") then jsGet d "program:abapProgram"
  else if truthyOpt (jsGet d "table:abapTable") then jsGet d "table:abapTable"
  else none

/-- `root?.['adtcore:packageRef']?._attributes?.['adtcore:name']`. -/
def pkgNameChain (d : JVal) : Option JVal :=
  jsGetOpt (jsGetOpt (jsGetOpt (resolveRoot d) "adtcore:packageRef") "_attributes") "adtcore:name"

/-- `${... || 'TMP'}`: the package segment of the path string. -/
def pkgComponent (d : JVal) : String :=
  if truthyOpt (pkgNameChain d) then jsTemplateOpt (pkgNameChain d) else "TMP"

/-- `const attrs = root?._attributes || {}`. -/
def attrsOf (d : JVal) : JVal :=
  if truthyOpt (jsGetOpt (resolveRoot d) "_attributes") then
    (jsGetOpt (resolveRoot d) "_attributes").getD (.jobj .fnil)
  else .jobj .fnil

/-- The template string of `handleGetObjectPath`
(src/tool_handlers/ObjectHandler.ts, line 173). -/
def pathStringOf (d : JVal) : String :=
  pkgComponent d ++ " > " ++ jsTemplateOpt (jsGet (attrsOf d) "adtcore:name")

/-- `handleGetObjectPath` (src/tool_handlers/ObjectHandler.ts, lines
165-175): returns `{ path: ... }`. -/
def handleGetObjectPath (d : JVal) : JVal :=
  .jobj (.fcons "path" (.jstr (pathStringOf d)) .fnil)

/-- V8 error message for a `null` search hit (caught by the handler's
`try/catch` and wrapped into `Search failed: ...`). -/
def nullAdtNameMsg : String := "Cannot read properties of null (reading \x27adtcore:name\x27)"

/-- One line of the search-result rendering (src/unnamed/part_000, lines
120-125): name/type/uri have a namespaced-or-plain fallback with no final
default, description falls back to the empty string. -/
def searchItemLine : JVal → Except String String
  | item =>
    if isNull item then .error nullAdtNameMsg
    else
      .ok ("- " ++ jsTemplateOpt (jsOrV (jsGet item "adtcore:name") (jsGet item "name")) ++
        " (" ++ jsTemplateOpt (jsOrV (jsGet item "adtcore:type") (jsGet item "type")) ++ ") " ++
        jsToPrim (fieldChainV item ["adtcore:description"]) ++
        "\n  URL: " ++ jsTemplateOpt (jsOrV (jsGet item "adtcore:uri") (jsGet item "uri")))

/-- `ObjectHandler__.handleGetObjects` (src/unnamed/part_000, lines
110-131) applied to the search results returned by the client. -/
def handleGetObjects (results : List JVal) : Except Thrown String :=
  if results.length = 0 then .ok "No objects found."
  else
    match results.mapM searchItemLine with
    | .ok lines => .ok (String.intercalate "\n" lines)
    | .error m => .error (.mcpErr internalErrorCode ("Search failed: " ++ m))

/-- The source-URL construction of `handleGetObjectSourceCode`
(src/tool_handlers/ObjectHandler.ts, line 154 and src/unnamed/part_000,
line 150):
`objectUrl.includes('/source/main') ? objectUrl : objectUrl + '/source/main'`. -/
def sourceUrlFor (objectUrl : String) : String :=
  if jsIncludes objectUrl "/source/main" then objectUrl
  else objectUrl ++ "/source/main"

def isObjOrArr : JVal → Bool
  | .jobj _ => true
  | .jarr _ => true
  | _ => false

/-- No list-renderer field of an object entry is present with a truthy
value. -/
def noItemFields (fs : JFields) : Bool :=
  !truthyOpt (jsGet (.jobj fs) "name") && !truthyOpt (jsGet (.jobj fs) "ObjectName") &&
    !truthyOpt (jsGet (.jobj fs) "type") && !truthyOpt (jsGet (.jobj fs) "ObjectType") &&
    !truthyOpt (jsGet (.jobj fs) "description")

def sampleItem : JVal :=
  .jobj (.fcons "name" (.jstr "ZOBJ") (.fcons "type" (.jstr "CLAS") .fnil))

def sample64 : JList := JList.ofList (List.replicate 64 sampleItem)

def arr51 : JList := JList.ofList (List.replicate 51 sampleItem)

def nulls51 : JList := JList.ofList (List.replicate 51 JVal.jnull)

def hit0 : JVal :=
  .jobj (.fcons "adtcore:name" (.jstr "ZCL_FOO")
    (.fcons "adtcore:type" (.jstr "CLAS/OC")
      (.fcons "adtcore:uri" (.jstr "/sap/bc/adt/oo/classes/zcl_foo") .fnil)))

def searchOut0 : String := "- ZCL_FOO (CLAS/OC) \n  URL: /sap/bc/adt/oo/classes/zcl_foo"

/-- A response whose first candidate root key is present but falsy (an
empty XML element parses to the empty string). -/
def falsyRootData : JVal :=
  .jobj (.fcons "class:abapClass" (.jstr "")
    (.fcons "adtcore:object" (.jobj (.fcons "x" (.jnum 1) .fnil)) .fnil))

/-- A response with only a table root whose attribute bag lacks
`adtcore:name`. -/
def namelessTableData : JVal :=
  .jobj (.fcons "table:abapTable"
    (.jobj (.fcons "_attributes" (.jobj (.fcons "adtcore:type" (.jstr "TABL") .fnil)) .fnil)) .fnil)

def c1Input : JVal := .jobj (.fcons "etag" (.jstr "E") (.fcons "name" (.jstr "N") .fnil))

def c4Input : String := "<?xml version=\"1.0\"?><adt:doc>hello</adt:doc>"

def c6Fields : JFields := .fcons "foo" (.jstr "bar") .fnil

/-- A response containing none of the four candidate root keys. -/
def noRootData : JVal := .jobj (.fcons "foo" (.jstr "x") .fnil)

/-- The truthy root value inside `falsyRootData`. -/
def rootX : JVal := .jobj (.fcons "x" (.jnum 1) .fnil)

theorem mem_of_mem_dropWhile {a : Char} {p : Char → Bool} :
    ∀ {l : List Char}, a ∈ l.dropWhile p → a ∈ l := by
  intro l h
  induction l with
  | nil => simp at h
  | cons c rest ih =>
    rw [List.dropWhile_cons] at h
    split at h
    · exact List.mem_cons_of_mem c (ih h)
    · exact h

theorem mem_of_mem_trimChars {a : Char} {l : List Char} (h : a ∈ trimChars l) : a ∈ l := by
  unfold trimChars at h
  rw [List.mem_reverse] at h
  have h2 := mem_of_mem_dropWhile h
  rw [List.mem_reverse] at h2
  exact mem_of_mem_dropWhile h2

theorem lt_not_mem_stripAux (b : Bool) (l : List Char) : '<' ∉ stripAux b l := by
  induction l generalizing b with
  | nil => cases b <;> simp [stripAux]
  | cons c rest ih =>
    cases b with
    | true =>
      rw [stripAux]
      split
      · exact ih false
      · exact ih true
    | false =>
      rw [stripAux]
      split
      · exact ih true
      · rename_i hc
        intro hmem
        rcases List.mem_cons.mp hmem with he | ht
        · exact hc he.symm
        · exact ih false ht

theorem startsWithL_self (l : List Char) : startsWithL l l = true := by
  induction l with
  | nil => rfl
  | cons c rest ih => simp [startsWithL, ih]

theorem inclL_append_self (n x : List Char) : inclL n (x ++ n) = true := by
  induction x with
  | nil =>
    cases n with
    | nil => rfl
    | cons c rest => simp [inclL, startsWithL_self]
  | cons a x' ih => simp [inclL, ih]

theorem renderItems_ok {l : List JVal} (h : ∀ x ∈ l, isNull x = false) :
    renderItems l = .ok (l.map renderItemStr) := by
  induction l with
  | nil => rfl
  | cons item rest ih =>
    have hi : isNull item = false := h item (List.mem_cons_self item rest)
    have hr := ih (fun x hx => h x (List.mem_cons_of_mem item hx))
    simp [renderItems, hi, hr]

mutual

theorem redact_idem_v (v : JVal) : redact (redact v) = redact v := by
  cases v with
  | jstr s => rfl
  | jnum n => rfl
  | jbig n => rfl
  | jbool b => rfl
  | jnull => rfl
  | jobj fs => simp only [redact]; rw [redactF_idem fs]
  | jarr xs => simp only [redact]; rw [redactL_idem xs]

theorem redactF_idem (fs : JFields) : redactF (redactF fs) = redactF fs := by
  cases fs with
  | fnil => rfl
  | fcons k v rest =>
    rw [redactF]
    split
    · exact redactF_idem rest
    · rename_i hk
      rw [redactF, if_neg hk, redact_idem_v v, redactF_idem rest]

theorem redactL_idem (xs : JList) : redactL (redactL xs) = redactL xs := by
  cases xs with
  | lnil => rfl
  | lcons v rest =>
    rw [redactL, redactL, redact_idem_v v, redactL_idem rest]

end

mutual

theorem hbk_redact_v (v : JVal) : hasBlockedKey (redact v) = false := by
  cases v with
  | jstr s => rfl
  | jnum n => rfl
  | jbig n => rfl
  | jbool b => rfl
  | jnull => rfl
  | jobj fs => simp only [redact, hasBlockedKey]; exact hbk_redactF fs
  | jarr xs => simp only [redact, hasBlockedKey]; exact hbk_redactL xs

theorem hbk_redactF (fs : JFields) : hasBlockedKeyF (redactF fs) = false := by
  cases fs with
  | fnil => rfl
  | fcons k v rest =>
    rw [redactF]
    split
    · exact hbk_redactF rest
    · rename_i hk
      rw [hasBlockedKeyF]
      simp only [hbk_redact_v v, hbk_redactF rest, Bool.or_false]
      simpa using hk

theorem hbk_redactL (xs : JList) : hasBlockedKeyL (redactL xs) = false := by
  cases xs with
  | lnil => rfl
  | lcons v rest =>
    rw [redactL, hasBlockedKeyL, hbk_redact_v v, hbk_redactL rest]
    rfl

end

theorem falsyOpt_get (o : Option JVal) (k : String) (h : truthyOpt o = false) :
    jsGetOpt o k = none := by
  cases o with
  | none => rfl
  | some v =>
    cases v with
    | jstr s => rfl
    | jnum n => rfl
    | jbig n => rfl
    | jbool b => rfl
    | jnull => rfl
    | jobj fs => simp [truthyOpt, truthy, isFalsy] at h
    | jarr xs => simp [truthyOpt, truthy, isFalsy] at h

/-- C7: The block-list redaction is idempotent: for every value (in
particular every mapping or sequence), applying the redaction (block-listed
key removal plus bigint-to-string normalization) twice yields the same
result as applying it once. -/
theorem redact_idempotent (v : JVal) : redact (redact v) = redact v :=
  redact_idem_v v

/-- C9: The result serializer treats every falsy input — including the
empty string — as absent data and returns the non-empty text
`No data returned from SAP`. -/
theorem serializeResult_falsy_no_data (v : JVal) (h : isFalsy v = true) :
    serializeResult v = ⟨[mkText "No data returned from SAP"], false⟩ ∧
    "No data returned from SAP" ≠ "" := by
  constructor
  · simp [serializeResult, h]
  · decide

theorem serializeResult_falsy_no_data_witness :
    isFalsy (JVal.jstr "") = true ∧
    (serializeResult (JVal.jstr "") = ⟨[mkText "No data returned from SAP"], false⟩ ∧
      "No data returned from SAP" ≠ "") :=
  ⟨by decide, serializeResult_falsy_no_data (JVal.jstr "") (by decide)⟩

/-- C10: The source-code URL construction always yields a URL containing
the segment `/source/main`, and applying the construction to its own
output yields the same URL (the segment is never appended twice). -/
theorem sourceUrl_contains_and_idempotent (u : String) :
    jsIncludes (sourceUrlFor u) "/source/main" = true ∧
    sourceUrlFor (sourceUrlFor u) = sourceUrlFor u := by
  have hpart : jsIncludes (sourceUrlFor u) "/source/main" = true := by
    cases hc : jsIncludes u "/source/main" with
    | true => simp [sourceUrlFor, hc]
    | false =>
      simp only [sourceUrlFor, hc, Bool.false_eq_true, if_false]
      unfold jsIncludes
      rw [String.data_append]
      exact inclL_append_self _ _
  refine ⟨hpart, ?_⟩
  calc sourceUrlFor (sourceUrlFor u)
      = if jsIncludes (sourceUrlFor u) "/source/main" then sourceUrlFor u
        else sourceUrlFor u ++ "/source/main" := rfl
    _ = sourceUrlFor u := by rw [if_pos hpart]

/-- C3: A thrown `McpError` reaching the tool boundary is projected to a
text result `{"error": message, "code": code}` with `isError` set; any
other thrown value (a generic `Error`, or a non-`Error` value wrapped into
one) is projected to the generic
`{"error": "Internal server error", "code": -32603}` text result; the
boundary `callToolOutcome` is total, so no exception propagates past it. -/
theorem callToolOutcome_error_projection (c : Int) (m : String) (gm : String) (w : JVal) :
    callToolOutcome (.error (.mcpErr c m)) =
      ⟨[mkText ("\x7b" ++ (quoteJson "error" ++ ":" ++ quoteJson m ++ "," ++
        (quoteJson "code" ++ ":" ++ toString c)) ++ "\x7d")], true⟩ ∧
    callToolOutcome (.error (.jsErr gm)) =
      ⟨[mkText ("\x7b" ++ (quoteJson "error" ++ ":" ++ quoteJson "Internal server error" ++ "," ++
        (quoteJson "code" ++ ":" ++ toString internalErrorCode)) ++ "\x7d")], true⟩ ∧
    callToolOutcome (.error (.other w)) = callToolOutcome (.error (.jsErr gm)) :=
  ⟨rfl, rfl, rfl⟩

/-- C1: For every mapping or sequence input, the serializer renders the
redacted tree (`serializeClean (redact v)`), and the redacted tree contains
no field whose key is in the block-list at any nesting depth, so no such
field appears in the rendered PresentedText. -/
theorem serializeResult_no_blocked_fields (v : JVal) (h : isObjOrArr v = true) :
    serializeResult v = serializeClean (redact v) ∧ hasBlockedKey (redact v) = false := by
  refine ⟨?_, hbk_redact_v v⟩
  cases v with
  | jobj fs => rfl
  | jarr xs => rfl
  | jstr s => simp [isObjOrArr] at h
  | jnum n => simp [isObjOrArr] at h
  | jbig n => simp [isObjOrArr] at h
  | jbool b => simp [isObjOrArr] at h
  | jnull => simp [isObjOrArr] at h

theorem serializeResult_no_blocked_fields_witness :
    isObjOrArr c1Input = true ∧
    (serializeResult c1Input = serializeClean (redact c1Input) ∧
      hasBlockedKey (redact c1Input) = false) :=
  ⟨by decide, serializeResult_no_blocked_fields c1Input (by decide)⟩

/-- C4: For every string input that (after the serializer's initial trim)
begins with an XML declaration, the serializer returns the string trimmed,
with every tag span removed, and trimmed again — and the resulting text
contains no opening angle bracket at all, hence no tag span. -/
theorem serializeResult_xml_strip (s : String)
    (h : startsWithS (jsTrim s) "<?xml" = true) :
    serializeResult (.jstr s) =
      ⟨[mkText (jsTrim (String.mk (stripTags (jsTrim s).data)))], false⟩ ∧
    '<' ∉ (jsTrim (String.mk (stripTags (jsTrim s).data))).data := by
  constructor
  · have hs : (s == "") = false := by
      cases he : s == "" with
      | false => rfl
      | true =>
        have hse : s = "" := by simpa using he
        subst hse
        exact absurd h (by decide)
    simp [serializeResult, isFalsy, hs, h]
  · intro hmem
    have h1 : '<' ∈ trimChars (stripTags (jsTrim s).data) := hmem
    have h2 := mem_of_mem_trimChars h1
    exact lt_not_mem_stripAux false _ h2

theorem serializeResult_xml_strip_witness :
    startsWithS (jsTrim c4Input) "<?xml" = true ∧
    (serializeResult (.jstr c4Input) =
      ⟨[mkText (jsTrim (String.mk (stripTags (jsTrim c4Input).data)))], false⟩ ∧
    '<' ∉ (jsTrim (String.mk (stripTags (jsTrim c4Input).data))).data) :=
  ⟨by decide, serializeResult_xml_strip c4Input (by decide)⟩

theorem serializeClean_long (ys : JList) (hlen : 50 < ys.toList.length)
    (hnn : ∀ x ∈ ys.toList.take 50, isNull x = false) :
    serializeClean (.jarr ys) =
      ⟨[mkText (String.intercalate "\n" ((ys.toList.take 50).map renderItemStr) ++
        "\n\n...and " ++ toString (ys.toList.length - 50) ++ " more objects.")], false⟩ := by
  have hz : ¬ (ys.toList.length = 0) := by omega
  have hr := renderItems_ok hnn
  simp only [serializeClean]
  rw [if_neg hz]
  simp only [hr]
  rw [if_pos hlen]

set_option maxRecDepth 8000 in
/-- C2 (amended): for every sequence whose redacted form has more than 50
entries, none of the first 50 being `null`, the serializer renders exactly
the first 50 entries as `- name (type) description` lines (with the
name/ObjectName and type/ObjectType fallbacks) joined by newlines, followed
by a blank line and the summary `...and N - 50 more objects.`; in
particular the 64-element sample yields text ending with
`...and 14 more objects.`. (The original claim, quantified over every
sequence, fails when an entry is `null`: the renderer then throws and the
serializer's catch produces an error text instead — see the
counterexample.) -/
theorem serializeResult_truncation_amended (xs : JList)
    (hlen : 50 < (cleanList xs).length)
    (hnn : ∀ x ∈ (cleanList xs).take 50, isNull x = false) :
    serializeResult (.jarr xs) =
      ⟨[mkText (String.intercalate "\n" (((cleanList xs).take 50).map renderItemStr) ++
        "\n\n...and " ++ toString ((cleanList xs).length - 50) ++ " more objects.")], false⟩ ∧
    (((cleanList xs).take 50).map renderItemStr).length = 50 ∧
    endsWithS (Presented.textOf (serializeResult (.jarr sample64))) "...and 14 more objects." = true := by
  refine ⟨?_, ?_, by decide⟩
  · exact serializeClean_long (redactL xs) hlen hnn
  · rw [List.length_map, List.length_take]
    omega

theorem serializeResult_truncation_amended_witness :
    50 < (cleanList arr51).length ∧
    serializeResult (.jarr arr51) =
      ⟨[mkText (String.intercalate "\n" (((cleanList arr51).take 50).map renderItemStr) ++
        "\n\n...and " ++ toString ((cleanList arr51).length - 50) ++ " more objects.")], false⟩ :=
  ⟨by decide, (serializeResult_truncation_amended arr51 (by decide) (by decide)).1⟩

/-- C2 counterexample: a 51-element sequence of `null` entries has more
than 50 entries, yet the serializer does not render 50 item lines plus a
summary line — the renderer throws on `item.name` and the catch produces
an error text result instead. -/
theorem serializeResult_trunc_null_counterexample :
    serializeResult (.jarr nulls51) = ⟨[mkText ("Error: " ++ nullNameMsg)], true⟩ ∧
    endsWithS (Presented.textOf (serializeResult (.jarr nulls51))) "...and 1 more objects." = false :=
  ⟨rfl, by decide⟩

/-- C5 counterexample: on a response whose first candidate key
`class:abapClass` is present with a falsy value (an empty XML element
parses to the empty string), the code's `||` chain skips it and returns
the later `adtcore:object` value, so the resolver does not return the
value of the first present candidate key. -/
theorem resolveRoot_first_present_counterexample :
    resolveRoot falsyRootData = some rootX ∧
    firstPresentRoot falsyRootData = some (JVal.jstr "") ∧
    resolveRoot falsyRootData ≠ firstPresentRoot falsyRootData := by
  refine ⟨rfl, rfl, ?_⟩
  intro hcontra
  have e1 : resolveRoot falsyRootData = some rootX := rfl
  have e2 : firstPresentRoot falsyRootData = some (JVal.jstr "") := rfl
  rw [e1, e2] at hcontra
  simp [rootX] at hcontra

/-- C5 (amended): the root resolver returns the value of the first
candidate key (class, generic object, program, table — in that order)
whose value is present and truthy; when no candidate is truthy — in
particular when none is present — the path transformer does not raise and
its package segment is the fallback token `TMP`. -/
theorem resolveRoot_first_truthy_amended (d : JVal) (v : JVal) :
    (firstTruthyRoot d = some v → resolveRoot d = some v) ∧
    (firstTruthyRoot d = none →
      pathStringOf d = "TMP > " ++ jsTemplateOpt (jsGet (attrsOf d) "adtcore:name")) := by
  constructor
  · intro h
    unfold firstTruthyRoot at h
    unfold resolveRoot jsOrV
    split_ifs at h ⊢ <;> simp_all
  · intro h
    unfold firstTruthyRoot at h
    split_ifs at h with h1 h2 h3 h4
    · exact absurd (h ▸ h1) (by simp [truthyOpt])
    · exact absurd (h ▸ h2) (by simp [truthyOpt])
    · exact absurd (h ▸ h3) (by simp [truthyOpt])
    · exact absurd (h ▸ h4) (by simp [truthyOpt])
    have hb1 : truthyOpt (jsGet d "class:abapClass") = false := by
      revert h1; cases truthyOpt (jsGet d "class:abapClass") <;> simp
    have hb2 : truthyOpt (jsGet d "adtcore:object") = false := by
      revert h2; cases truthyOpt (jsGet d "adtcore:object") <;> simp
    have hb3 : truthyOpt (jsGet d "program:abapProgram") = false := by
      revert h3; cases truthyOpt (jsGet d "program:abapProgram") <;> simp
    have hb4 : truthyOpt (jsGet d "table:abapTable") = false := by
      revert h4; cases truthyOpt (jsGet d "table:abapTable") <;> simp
    have hroot : truthyOpt (resolveRoot d) = false := by
      unfold resolveRoot jsOrV
      rw [if_neg (by simp [hb1]), if_neg (by simp [hb2]), if_neg (by simp [hb3])]
      exact hb4
    have c1 : jsGetOpt (resolveRoot d) "adtcore:packageRef" = none :=
      falsyOpt_get _ _ hroot
    have c3 : pkgNameChain d = none := by
      unfold pkgNameChain
      rw [c1]
      rfl
    have hpk : pkgComponent d = "TMP" := by
      unfold pkgComponent
      rw [c3]
      rfl
    unfold pathStringOf
    rw [hpk]
    have hlit : ("TMP" : String) ++ " > " = "TMP > " := rfl
    rw [hlit]

theorem resolveRoot_first_truthy_amended_witness :
    resolveRoot falsyRootData = some rootX ∧
    pathStringOf noRootData = "TMP > " ++ jsTemplateOpt (jsGet (attrsOf noRootData) "adtcore:name") :=
  ⟨(resolveRoot_first_truthy_amended falsyRootData rootX).1 rfl,
   (resolveRoot_first_truthy_amended noRootData rootX).2 rfl⟩

/-- C6 counterexample: the path transformer applied to a resolved root
lacking the `adtcore:name` attribute interpolates `undefined` into the
template, so the rendered path contains the literal token `undefined`. -/
theorem pathString_undefined_counterexample :
    pathStringOf namelessTableData = "TMP > undefined" ∧
    jsIncludes (pathStringOf namelessTableData) "undefined" = true ∧
    handleGetObjectPath namelessTableData =
      .jobj (.fcons "path" (.jstr "TMP > undefined") .fnil) :=
  ⟨rfl, by decide, rfl⟩

/-- C6 (amended): fields read through `||` fallback chains render as the
empty string or a placeholder when absent — the serializer's item fields
render as empty strings (giving the line `-  () `, which contains no
`undefined`), and the path transformer's package segment falls back to
`TMP`; but the object-name position of the path template has no fallback
and renders a missing `adtcore:name` as the literal text `undefined` (see
the counterexample). -/
theorem missing_fields_render_amended (fs : JFields) (d : JVal)
    (hf : noItemFields fs = true)
    (hp : truthyOpt (pkgNameChain d) = false) :
    renderItemStr (.jobj fs) = "-  () " ∧
    jsIncludes "-  () " "undefined" = false ∧
    pkgComponent d = "TMP" ∧
    pathStringOf d = "TMP > " ++ jsTemplateOpt (jsGet (attrsOf d) "adtcore:name") := by
  have hfs := hf
  simp only [noItemFields, Bool.and_eq_true, Bool.not_eq_true'] at hfs
  obtain ⟨⟨⟨⟨h1, h2⟩, h3⟩, h4⟩, h5⟩ := hfs
  have e1 : fieldChainV (.jobj fs) ["name", "ObjectName"] = .jstr "" := by
    simp [fieldChainV, h1, h2]
  have e2 : fieldChainV (.jobj fs) ["type", "ObjectType"] = .jstr "" := by
    simp [fieldChainV, h3, h4]
  have e3 : fieldChainV (.jobj fs) ["description"] = .jstr "" := by
    simp [fieldChainV, h5]
  have hpk : pkgComponent d = "TMP" := by
    unfold pkgComponent
    rw [hp]
    rfl
  refine ⟨?_, by decide, hpk, ?_⟩
  · rw [renderItemStr, e1, e2, e3]
    rfl
  · unfold pathStringOf
    rw [hpk]
    have hlit : ("TMP" : String) ++ " > " = "TMP > " := rfl
    rw [hlit]

theorem missing_fields_render_amended_witness :
    noItemFields c6Fields = true ∧ truthyOpt (pkgNameChain JVal.jnull) = false ∧
    (renderItemStr (.jobj c6Fields) = "-  () " ∧
      jsIncludes "-  () " "undefined" = false ∧
      pkgComponent JVal.jnull = "TMP" ∧
      pathStringOf JVal.jnull =
        "TMP > " ++ jsTemplateOpt (jsGet (attrsOf JVal.jnull) "adtcore:name")) :=
  ⟨by decide, by decide,
   missing_fields_render_amended c6Fields JVal.jnull (by decide) (by decide)⟩

/-- C8 counterexample: the search transformer's single-hit output places
the URL on a second, indented line, so it does not contain the claimed
one-line substring in which two spaces separate the type from `URL:`. -/
theorem search_line_substring_counterexample :
    handleGetObjects [hit0] = .ok searchOut0 ∧
    jsIncludes searchOut0 "- ZCL_FOO (CLAS/OC)  URL: /sap/bc/adt/oo/classes/zcl_foo" = false :=
  ⟨rfl, by decide⟩

/-- C8 (amended): the search transformer, given the single hit for
`ZCL_FOO`, produces the line `- ZCL_FOO (CLAS/OC) ` followed by a newline
and the indented line `  URL: /sap/bc/adt/oo/classes/zcl_foo` — the two
parts are separated by a newline, not by two spaces. -/
theorem search_line_amended :
    handleGetObjects [hit0] = .ok searchOut0 ∧
    searchOut0 = "- ZCL_FOO (CLAS/OC) " ++ "\n" ++ "  URL: /sap/bc/adt/oo/classes/zcl_foo" ∧
    jsIncludes searchOut0 "- ZCL_FOO (CLAS/OC) \n  URL: /sap/bc/adt/oo/classes/zcl_foo" = true :=
  ⟨rfl, rfl, by decide⟩
